import Mathlib

/-!
# Verification of the External Data Aggregator (`src/external_api.py`)

Shallow embedding of the external-data component: the detail resolver
`fetch_pokemon_details`, the page aggregator `get_pokemon_data`, and the
single-item endpoint `get_pokemon_by_name`.

Modelling decisions, each tied to the source:

* Upstream HTTP is modelled by two deterministic oracles: `listWorld`, the
  response to `client.get(POKEMON_API_URL, params={offset, limit})`, and
  `detailWorld`, the response to `client.get(POKEMON_API_URL + name)`.
  Timeouts and transport errors (`httpx.TimeoutException`, `httpx.RequestError`)
  are a `netFail` constructor; any other response carries a status code and a
  JSON body.
* JSON is a small inductive `Json`; Python's `data[key]` indexing that raises
  `KeyError`/`TypeError` on a missing key or non-dict value is modelled by an
  `Option`-valued field lookup, matching the `try/except (KeyError, TypeError)`
  around the image-URL extraction.
* The module-level dict `POKEMON_CACHE` is an association list observed only
  through `lookup`; `dict` assignment is modelled by consing, which agrees with
  assignment under `lookup`.
* `asyncio.gather` over the per-entry detail coroutines: every coroutine checks
  the cache before its first suspension point, so all of them observe the cache
  as it was when the page request started; their results are collected in task
  order, and their cache writes land in completion order. The completion order
  is an explicit schedule parameter `sched` that only affects the final cache,
  never the response.
* FastAPI's `HTTPException` is a subclass of `Exception`, so the
  `except Exception` in `get_pokemon_data` catches the `HTTPException`s raised
  inside the `try` and re-raises them as status 500. The embedding keeps the
  inner exception (`Exn`) and the outer wrapping step separate so that this
  behaviour is visible.
-/

/-- JSON values, as far as the module reads them. -/
inductive Json where
  | null : Json
  | str : String → Json
  | num : Int → Json
  | obj : List (String × Json) → Json
  | arr : List Json → Json

/-- Python `data[key]` on a JSON value: `some` when `data` is an object with the key,
`none` when the key is missing (`KeyError`) or `data` is not an object
(`TypeError`). -/
def Json.getField : Json → String → Option Json
  | Json.obj fields, k => fields.lookup k
  | _, _ => none

def Json.asStr : Json → Option String
  | Json.str s => some s
  | _ => none

def Json.asInt : Json → Option Int
  | Json.num n => some n
  | _ => none

def Json.asArr : Json → Option (List Json)
  | Json.arr xs => some xs
  | _ => none

/-- The Pydantic `Pokemon` model. -/
structure Pokemon where
  id : Int
  name : String
  height : Int
  weight : Int
  types : List String
  image_url : Option String
deriving DecidableEq, Repr

/-- The Pydantic `PokemonResponse` page envelope. -/
structure PokemonResponse where
  pokemon : List Pokemon
  page : Nat
  total : Nat
  has_more : Bool
deriving DecidableEq, Repr

/-- The dict `POKEMON_CACHE`: lowercase name to cached `Pokemon`. -/
def Cache : Type := List (String × Pokemon)

def Cache.lookup (c : Cache) (k : String) : Option Pokemon :=
  List.lookup k c

/-- Assignment `POKEMON_CACHE[k] = v`: under `Cache.lookup`, consing coincides with dict
assignment. -/
def Cache.insert (c : Cache) (k : String) (v : Pokemon) : Cache :=
  (k, v) :: c

/-- An upstream response to a detail request: a network-level failure
(`httpx.TimeoutException` or `httpx.RequestError`), or a status code with a
JSON body. -/
inductive DetailResp where
  | netFail : DetailResp
  | response : Nat → Json → DetailResp

/-- The chained lookup `data["sprites"]["other"]["official-artwork"]
["front_default"]`: `none` is a `KeyError`/`TypeError` somewhere along the
path. -/
def imagePathLookup (data : Json) : Option Json :=
  (((data.getField "sprites").bind
      (fun j => j.getField "other")).bind
      (fun j => j.getField "official-artwork")).bind
      (fun j => j.getField "front_default")

/-- The image-URL extraction under `try/except (KeyError, TypeError): pass`,
which leaves `image_url = None` when the path breaks; a JSON `null` leaf is
Python `None` as well. (A non-string, non-null leaf would reach the Pydantic
constructor, whose coercion behaviour is version-dependent; the model takes no
image there, and no claim exercises that corner.) -/
def extractImageUrl (data : Json) : Option String :=
  match imagePathLookup data with
  | some (Json.str s) => some s
  | _ => none

/-- Python `t["type"]["name"]` for one element of `data["types"]`. -/
def parseTypeName (t : Json) : Option String :=
  ((t.getField "type").bind (fun j => j.getField "name")).bind Json.asStr

/-- Python `[t["type"]["name"] for t in data["types"]]`: the first failing element
raises. -/
def parseTypesList : List Json → Option (List String)
  | [] => some []
  | t :: ts => do
    let nm ← parseTypeName t
    let rest ← parseTypesList ts
    pure (nm :: rest)

/-- Building `Pokemon(id=data['id'], ...)` from the status-200 JSON body.
`none` models the uncaught `KeyError`/`TypeError` a malformed body raises for
the required fields; the image URL is extracted tolerantly and can never cause
failure. -/
def parseDetail (data : Json) : Option Pokemon := do
  let i ← (data.getField "id").bind Json.asInt
  let nm ← (data.getField "name").bind Json.asStr
  let h ← (data.getField "height").bind Json.asInt
  let w ← (data.getField "weight").bind Json.asInt
  let tjs ← (data.getField "types").bind Json.asArr
  let tys ← parseTypesList tjs
  pure { id := i, name := nm, height := h, weight := w, types := tys,
         image_url := extractImageUrl data }

/-- Python `str.lower()`. Extensionally equal to core `String.toLower`
(`strToLower_eq_toLower` below), but structurally recursive, so concrete
instances evaluate by kernel reduction. -/
def strToLower (s : String) : String := String.mk (s.data.map Char.toLower)

/-- Outcome of one `fetch_pokemon_details` coroutine. -/
inductive FetchResult where
  | found : Pokemon → FetchResult
  | absent : FetchResult
  | exn : FetchResult
deriving DecidableEq, Repr

/-- What one run of `fetch_pokemon_details` returns, writes, and requests. -/
structure FetchOut where
  result : FetchResult
  write : Option (String × Pokemon)
  calls : Nat
deriving DecidableEq, Repr

/-- Runs `fetch_pokemon_details(name)` against a fixed upstream `world` and the
cache state `cache` it observes: cache lookup by `name.lower()`; on a miss,
one GET at the lowercased name; status 200 parses and caches, any other status
returns `None`, network failures return `None`, and a parse failure of a
required field is an uncaught exception. -/
def fetch_pokemon_details (world : String → DetailResp) (cache : Cache)
    (name : String) : FetchOut :=
  match cache.lookup (strToLower name) with
  | some p => { result := FetchResult.found p, write := none, calls := 0 }
  | none =>
    match world (strToLower name) with
    | DetailResp.netFail =>
        { result := FetchResult.absent, write := none, calls := 1 }
    | DetailResp.response status data =>
        if status = 200 then
          match parseDetail data with
          | some p =>
              { result := FetchResult.found p,
                write := some (strToLower name, p), calls := 1 }
          | none => { result := FetchResult.exn, write := none, calls := 1 }
        else
          { result := FetchResult.absent, write := none, calls := 1 }

/-- Apply a coroutine's cache write. -/
def applyWrite (c : Cache) : Option (String × Pokemon) → Cache
  | none => c
  | some (k, v) => c.insert k v

/-- Whether `needle` occurs at the head of `hay`. -/
def charsBeginWith : List Char → List Char → Bool
  | [], _ => true
  | _ :: _, [] => false
  | a :: as, b :: bs => a == b && charsBeginWith as bs

/-- Whether `needle` occurs somewhere in `hay` (Python `needle in hay` on strings). -/
def charsContain (needle : List Char) : List Char → Bool
  | [] => charsBeginWith needle []
  | b :: bs => charsBeginWith needle (b :: bs) || charsContain needle bs

/-- Python `needle in hay` substring test. -/
def strContains (hay needle : String) : Bool :=
  charsContain needle.toList hay.toList

/-- One entry of the upstream list body (`{name, url}`); the module only ever
reads `item["name"]`. -/
structure ListEntry where
  name : String
  url : String
deriving DecidableEq, Repr

/-- The upstream list body `{count, results}`, modelled already parsed: a body
missing these keys raises an uncaught `KeyError`, which the catch-all turns
into the same generic 500 as any other internal failure — a path below no
claim. -/
structure ListBody where
  count : Nat
  results : List ListEntry
deriving DecidableEq, Repr

/-- An upstream response to the list request. -/
inductive ListResp where
  | netFail : ListResp
  | response : Nat → ListBody → ListResp

/-- Exceptions that can be raised inside the `try` of `get_pokemon_data`:
the explicitly raised `HTTPException`, an `httpx` error from the list call,
or an exception propagated out of `asyncio.gather` by a detail task. -/
inductive Exn where
  | httpExc : Nat → String → Exn
  | netErr : Exn
  | taskExn : Exn
deriving DecidableEq, Repr

/-- Python `str(e)` for the caught exception; for `HTTPException`, Starlette renders
`"{status_code}: {detail}"`. Only used inside the generic 500 message, whose
exact text no claim depends on. -/
def Exn.message : Exn → String
  | Exn.httpExc status detail => toString status ++ ": " ++ detail
  | Exn.netErr => "network error"
  | Exn.taskExn => "task exception"

/-- What an endpoint hands to the framework: a body, a raised `HTTPException`,
or an unhandled exception escaping to the framework. -/
inductive EndpointResult (α : Type) where
  | ok : α → EndpointResult α
  | httpError : Nat → String → EndpointResult α
  | crashed : EndpointResult α
deriving DecidableEq, Repr

/-- Python truthiness of `search` in `if search:`: `None` and `""` are falsy. -/
def searchActive : Option String → Bool
  | none => false
  | some s => !(s == "")

/-- The detail coroutines, one per list entry, each observing the cache as it
was when the page request started (every coroutine's cache check precedes its
first suspension point); results in task order, as `asyncio.gather` returns
them. -/
def gatherResults (dw : String → DetailResp) (cache : Cache)
    (entries : List ListEntry) : List FetchOut :=
  entries.map (fun e => fetch_pokemon_details dw cache e.name)

/-- Python `[p for p in pokemons if p is not None]`. -/
def foundOnly (outs : List FetchOut) : List Pokemon :=
  outs.filterMap (fun o => match o.result with
    | FetchResult.found p => some p
    | _ => none)

/-- Whether `asyncio.gather` propagates the first exception a task raises. -/
def anyExn (outs : List FetchOut) : Bool :=
  outs.any (fun o => decide (o.result = FetchResult.exn))

/-- Python `[item for item in results if search.lower() in item["name"].lower()]`. -/
def searchFiltered (s : String) (body : ListBody) : List ListEntry :=
  body.results.filter
    (fun item => strContains (strToLower item.name) (strToLower s))

/-- Python `results[offset:offset + limit]`. -/
def pageSlice (offset limit : Nat) (l : List ListEntry) : List ListEntry :=
  (l.drop offset).take limit

/-- The body of the `try` block of `get_pokemon_data`: either a page envelope
or a raised exception, together with the detail-task outcomes that ran (empty
when the list call already failed). -/
def get_pokemon_data_body (page limit : Nat) (search : Option String)
    (lw : Nat → Nat → ListResp) (dw : String → DetailResp) (cache : Cache) :
    Except Exn PokemonResponse × List FetchOut :=
  if searchActive search then
    let s := (search.getD "")
    match lw 0 1000 with
    | ListResp.netFail => (Except.error Exn.netErr, [])
    | ListResp.response status body =>
      if status ≠ 200 then
        (Except.error
          (Exn.httpExc status "Failed to fetch data from external API"), [])
      else
        let results := searchFiltered s body
        let offset := (page - 1) * limit
        let total_filtered := results.length
        let sliced := pageSlice offset limit results
        let outs := gatherResults dw cache sliced
        if anyExn outs then (Except.error Exn.taskExn, outs)
        else
          (Except.ok { pokemon := foundOnly outs, page := page,
                       total := total_filtered,
                       has_more := decide (offset + limit < total_filtered) },
           outs)
  else
    let offset := (page - 1) * limit
    match lw offset limit with
    | ListResp.netFail => (Except.error Exn.netErr, [])
    | ListResp.response status body =>
      if status ≠ 200 then
        (Except.error
          (Exn.httpExc status "Failed to fetch data from external API"), [])
      else
        let outs := gatherResults dw cache body.results
        if anyExn outs then (Except.error Exn.taskExn, outs)
        else
          (Except.ok { pokemon := foundOnly outs, page := page,
                       total := body.count,
                       has_more := decide (offset + limit < body.count) },
           outs)

/-- Fold the completed tasks' cache writes in completion order `sched` (a list
of task indices). -/
def applySched (cache : Cache) (writes : List (Option (String × Pokemon)))
    (sched : List Nat) : Cache :=
  sched.foldl (fun c i => match writes[i]? with
    | some w => applyWrite c w
    | none => c) cache

/-- Endpoint state after a request: the framework-visible response and the
cache left behind. -/
structure AggOut where
  response : EndpointResult PokemonResponse
  cacheAfter : Cache

/-- Endpoint `GET /external_data/` — `get_pokemon_data(page, limit, search)`. The
`except Exception` clause catches every exception raised inside the `try`,
including the `HTTPException`s raised there (FastAPI's `HTTPException` is an
`Exception` subclass), and re-raises status 500 with the generic message. -/
def get_pokemon_data (page limit : Nat) (search : Option String)
    (lw : Nat → Nat → ListResp) (dw : String → DetailResp) (cache : Cache)
    (sched : List Nat) : AggOut :=
  let r := get_pokemon_data_body page limit search lw dw cache
  let cacheAfter := applySched cache (r.2.map FetchOut.write) sched
  match r.1 with
  | Except.ok resp => { response := EndpointResult.ok resp,
                        cacheAfter := cacheAfter }
  | Except.error e =>
      { response := EndpointResult.httpError 500
          ("Internal server error: " ++ e.message),
        cacheAfter := cacheAfter }

/-- Endpoint state after a single-item lookup. -/
structure LookupOut where
  response : EndpointResult Pokemon
  cacheAfter : Cache

/-- Endpoint `GET /external_data/{pokemon_name}` — `get_pokemon_by_name`: delegates to
`fetch_pokemon_details`; `if not pokemon:` turns `None` into a 404, a `Pokemon`
object is always truthy; an exception from the resolver is unhandled here. -/
def get_pokemon_by_name (dw : String → DetailResp) (cache : Cache)
    (name : String) : LookupOut :=
  let o := fetch_pokemon_details dw cache name
  match o.result with
  | FetchResult.found p =>
      { response := EndpointResult.ok p, cacheAfter := applyWrite cache o.write }
  | FetchResult.absent =>
      { response := EndpointResult.httpError 404 "Pokemon not found",
        cacheAfter := applyWrite cache o.write }
  | FetchResult.exn =>
      { response := EndpointResult.crashed, cacheAfter := cache }

/-! ## Library lemmas: lowercasing, cache lookup, filterMap -/

theorem charToNat_ofNat {n : Nat} (h : n.isValidChar) :
    (Char.ofNat n).toNat = n := by
  rw [Char.ofNat, dif_pos h]
  rfl

/-- Core `Char.toLower` is idempotent (it maps into `a`-`z` or leaves the character
alone). -/
theorem charToLower_idem (c : Char) : c.toLower.toLower = c.toLower := by
  unfold Char.toLower
  by_cases h : c.toNat ≥ 65 ∧ c.toNat ≤ 90
  · rw [if_pos h]
    have hv : (c.toNat + 32).isValidChar := Or.inl (by omega)
    rw [charToNat_ofNat hv, if_neg (by omega)]
  · rw [if_neg h, if_neg h]

/-- The two lowercasing functions agree. -/
theorem strToLower_eq_toLower (s : String) : strToLower s = s.toLower := by
  show strToLower s = String.map Char.toLower s
  rw [String.map_eq]
  rfl

/-- Lowercasing `strToLower` is idempotent, as Python `str.lower()` is. -/
theorem strToLower_idem (s : String) : strToLower (strToLower s) = strToLower s := by
  unfold strToLower
  show String.mk ((s.data.map Char.toLower).map Char.toLower) = _
  rw [List.map_map]
  exact congrArg String.mk (List.map_congr_left (fun a _ => charToLower_idem a))

theorem cache_lookup_insert_self (c : Cache) (k : String) (v : Pokemon) :
    (c.insert k v).lookup k = some v := by
  simp [Cache.insert, Cache.lookup, List.lookup]

/-- A cache hit: the resolver returns the cached record, writes nothing, and
issues no upstream call. -/
theorem fetch_cache_hit (w : String → DetailResp) (c : Cache) (n : String)
    (p : Pokemon) (h : c.lookup (strToLower n) = some p) :
    fetch_pokemon_details w c n
      = { result := FetchResult.found p, write := none, calls := 0 } := by
  unfold fetch_pokemon_details
  rw [h]

/-- After a resolution that found a record, the record sits in the cache under
the lowercased name. -/
theorem fetch_found_lookup_after (w : String → DetailResp) (c : Cache)
    (n : String) (p : Pokemon)
    (h : (fetch_pokemon_details w c n).result = FetchResult.found p) :
    (applyWrite c (fetch_pokemon_details w c n).write).lookup (strToLower n)
      = some p := by
  unfold fetch_pokemon_details at h ⊢
  cases hc : c.lookup (strToLower n) with
  | some q =>
    rw [hc] at h
    simp at h
    simp [hc, applyWrite, h]
  | none =>
    rw [hc] at h
    cases hw : w (strToLower n) with
    | netFail => rw [hw] at h; simp at h
    | response status data =>
      rw [hw] at h
      by_cases hs : status = 200
      · cases hd : parseDetail data with
        | some q =>
          simp [hs, hd] at h
          simp [hc, hw, hs, hd, applyWrite, h, cache_lookup_insert_self]
        | none => simp [hs, hd] at h
      · simp [hs] at h

/-- A second resolution of any name with the same lowercased form is a pure
cache hit. -/
theorem fetch_after_found (w : String → DetailResp) (c : Cache) (n n2 : String)
    (p : Pokemon) (hl : strToLower n = strToLower n2)
    (h : (fetch_pokemon_details w c n).result = FetchResult.found p) :
    fetch_pokemon_details w (applyWrite c (fetch_pokemon_details w c n).write) n2
      = { result := FetchResult.found p, write := none, calls := 0 } :=
  fetch_cache_hit _ _ _ _ (by rw [← hl]; exact fetch_found_lookup_after w c n p h)

/-- Everything the resolver does goes through `name.lower()`, so lowercasing
the argument first changes nothing. -/
theorem fetch_toLower (w : String → DetailResp) (c : Cache) (n : String) :
    fetch_pokemon_details w c (strToLower n) = fetch_pokemon_details w c n := by
  unfold fetch_pokemon_details
  rw [strToLower_idem]

theorem foundOnly_gather (dw : String → DetailResp) (cache : Cache)
    (entries : List ListEntry) :
    foundOnly (gatherResults dw cache entries)
      = entries.filterMap (fun e =>
          match (fetch_pokemon_details dw cache e.name).result with
          | FetchResult.found p => some p
          | _ => none) := by
  unfold foundOnly gatherResults
  rw [List.filterMap_map]
  rfl

theorem filterMap_sublist_of_agree {α β : Type} (f g : α → Option β) :
    ∀ l : List α, (∀ a ∈ l, f a = none ∨ f a = g a) →
      (l.filterMap f).Sublist (l.filterMap g)
  | [], _ => by simp
  | a :: l, h => by
    have ht := filterMap_sublist_of_agree f g l
      (fun x hx => h x (List.mem_cons_of_mem a hx))
    rcases h a (List.mem_cons_self a l) with ha | ha
    · rw [List.filterMap_cons, ha]
      cases hg : g a with
      | none => rw [List.filterMap_cons, hg]; exact ht
      | some b => rw [List.filterMap_cons, hg]; exact ht.cons b
    · rw [List.filterMap_cons, List.filterMap_cons, ha]
      cases hg : g a with
      | none => exact ht
      | some b => exact ht.cons₂ b

theorem anyExn_eq_false_iff (outs : List FetchOut) :
    anyExn outs = false ↔ ∀ o ∈ outs, o.result ≠ FetchResult.exn := by
  simp [anyExn]

/-- Inversion of a successful run of the try body on the no-search branch. -/
theorem body_ok_nosearch (page limit : Nat) (search : Option String)
    (lw : Nat → Nat → ListResp) (dw : String → DetailResp) (cache : Cache)
    (r : PokemonResponse) (outs : List FetchOut)
    (hs : searchActive search = false)
    (h : get_pokemon_data_body page limit search lw dw cache
      = (Except.ok r, outs)) :
    ∃ body, lw ((page - 1) * limit) limit = ListResp.response 200 body ∧
      outs = gatherResults dw cache body.results ∧
      anyExn outs = false ∧
      r = { pokemon := foundOnly outs, page := page, total := body.count,
            has_more := decide ((page - 1) * limit + limit < body.count) } := by
  unfold get_pokemon_data_body at h
  rw [hs] at h
  simp only [Bool.false_eq_true, if_false] at h
  cases hlw : lw ((page - 1) * limit) limit with
  | netFail => rw [hlw] at h; simp at h
  | response status body =>
    rw [hlw] at h
    by_cases h200 : status = 200
    · subst h200
      simp only [ne_eq, not_true_eq_false, if_false] at h
      by_cases hex : anyExn (gatherResults dw cache body.results) = true
      · simp [hex] at h
      · rw [Bool.not_eq_true] at hex
        simp only [hex, Bool.false_eq_true, if_false, Prod.mk.injEq] at h
        obtain ⟨h1, h2⟩ := h
        cases h1
        exact ⟨body, rfl, h2.symm, by rw [← h2]; exact hex, by rw [← h2]⟩
    · simp [h200] at h

/-- Inversion of a successful run of the try body on the search branch. -/
theorem body_ok_search (page limit : Nat) (search : Option String)
    (lw : Nat → Nat → ListResp) (dw : String → DetailResp) (cache : Cache)
    (r : PokemonResponse) (outs : List FetchOut)
    (hs : searchActive search = true)
    (h : get_pokemon_data_body page limit search lw dw cache
      = (Except.ok r, outs)) :
    ∃ body, lw 0 1000 = ListResp.response 200 body ∧
      outs = gatherResults dw cache
        (pageSlice ((page - 1) * limit) limit
          (searchFiltered (search.getD "") body)) ∧
      anyExn outs = false ∧
      r = { pokemon := foundOnly outs, page := page,
            total := (searchFiltered (search.getD "") body).length,
            has_more := decide ((page - 1) * limit + limit
              < (searchFiltered (search.getD "") body).length) } := by
  unfold get_pokemon_data_body at h
  rw [hs] at h
  simp only [if_true] at h
  cases hlw : lw 0 1000 with
  | netFail => rw [hlw] at h; simp at h
  | response status body =>
    rw [hlw] at h
    by_cases h200 : status = 200
    · subst h200
      simp only [ne_eq, not_true_eq_false, if_false] at h
      by_cases hex : anyExn (gatherResults dw cache
          (pageSlice ((page - 1) * limit) limit
            (searchFiltered (search.getD "") body))) = true
      · simp [hex] at h
      · rw [Bool.not_eq_true] at hex
        simp only [hex, Bool.false_eq_true, if_false, Prod.mk.injEq] at h
        obtain ⟨h1, h2⟩ := h
        cases h1
        exact ⟨body, rfl, h2.symm, by rw [← h2]; exact hex, by rw [← h2]⟩
    · simp [h200] at h

/-- The shape checks the constructor arguments of `Pokemon(...)` perform on
the required fields (`data['id']`, `data['name']`, `data['height']`,
`data['weight']`, `data['types']` with `t["type"]["name"]` for each element);
exactly the reads whose failure is an uncaught exception. -/
def requiredFieldsOk (data : Json) : Bool :=
  ((data.getField "id").bind Json.asInt).isSome
    && ((data.getField "name").bind Json.asStr).isSome
    && ((data.getField "height").bind Json.asInt).isSome
    && ((data.getField "weight").bind Json.asInt).isSome
    && (match (data.getField "types").bind Json.asArr with
        | some tjs => (parseTypesList tjs).isSome
        | none => false)

theorem parseDetail_isSome_eq (data : Json) :
    (parseDetail data).isSome = requiredFieldsOk data := by
  unfold parseDetail requiredFieldsOk
  cases h1 : (data.getField "id").bind Json.asInt with
  | none => simp
  | some i =>
    cases h2 : (data.getField "name").bind Json.asStr with
    | none => simp
    | some nm =>
      cases h3 : (data.getField "height").bind Json.asInt with
      | none => simp
      | some ht =>
        cases h4 : (data.getField "weight").bind Json.asInt with
        | none => simp
        | some wt =>
          cases h5 : (data.getField "types").bind Json.asArr with
          | none => simp
          | some tjs =>
            cases h6 : parseTypesList tjs with
            | none => simp [h6]
            | some tys => simp [h6]

theorem parseDetail_image_url (data : Json) (p : Pokemon)
    (h : parseDetail data = some p) : p.image_url = extractImageUrl data := by
  unfold parseDetail at h
  cases h1 : (data.getField "id").bind Json.asInt with
  | none => rw [h1] at h; simp at h
  | some i =>
    rw [h1] at h
    cases h2 : (data.getField "name").bind Json.asStr with
    | none => rw [h2] at h; simp at h
    | some nm =>
      rw [h2] at h
      cases h3 : (data.getField "height").bind Json.asInt with
      | none => rw [h3] at h; simp at h
      | some ht =>
        rw [h3] at h
        cases h4 : (data.getField "weight").bind Json.asInt with
        | none => rw [h4] at h; simp at h
        | some wt =>
          rw [h4] at h
          cases h5 : (data.getField "types").bind Json.asArr with
          | none => rw [h5] at h; simp at h
          | some tjs =>
            rw [h5] at h
            simp only [Option.bind_eq_bind, Option.some_bind] at h
            cases h6 : parseTypesList tjs with
            | none => rw [h6] at h; simp at h
            | some tys =>
              rw [h6] at h
              simp only [Option.bind_eq_bind, Option.some_bind] at h
              simp at h
              rw [← h]

theorem extractImageUrl_none (data : Json)
    (h : imagePathLookup data = none) : extractImageUrl data = none := by
  unfold extractImageUrl
  rw [h]

/-- The endpoint returns a page envelope exactly when the try body did. -/
theorem get_ok_iff (page limit : Nat) (search : Option String)
    (lw : Nat → Nat → ListResp) (dw : String → DetailResp) (cache : Cache)
    (sched : List Nat) (r : PokemonResponse) :
    (get_pokemon_data page limit search lw dw cache sched).response
        = EndpointResult.ok r
      ↔ ∃ outs, get_pokemon_data_body page limit search lw dw cache
        = (Except.ok r, outs) := by
  unfold get_pokemon_data
  cases hb : get_pokemon_data_body page limit search lw dw cache with
  | mk e outs =>
    cases e with
    | ok a => simp
    | error ex => simp

/-- The response never depends on the completion order of the detail
coroutines; only the final cache does. -/
theorem get_response_sched_irrel (page limit : Nat) (search : Option String)
    (lw : Nat → Nat → ListResp) (dw : String → DetailResp) (cache : Cache)
    (sched sched' : List Nat) :
    (get_pokemon_data page limit search lw dw cache sched).response
      = (get_pokemon_data page limit search lw dw cache sched').response := by
  unfold get_pokemon_data
  cases hb : get_pokemon_data_body page limit search lw dw cache with
  | mk e outs => cases e <;> rfl

/-- Forward evaluation of the try body, no-search branch, list call OK, no
task exception. -/
theorem body_nosearch_eval (page limit : Nat) (search : Option String)
    (lw : Nat → Nat → ListResp) (dw : String → DetailResp) (cache : Cache)
    (body : ListBody) (hs : searchActive search = false)
    (hlw : lw ((page - 1) * limit) limit = ListResp.response 200 body)
    (hex : anyExn (gatherResults dw cache body.results) = false) :
    get_pokemon_data_body page limit search lw dw cache
      = (Except.ok { pokemon := foundOnly (gatherResults dw cache body.results),
                     page := page, total := body.count,
                     has_more := decide ((page - 1) * limit + limit
                       < body.count) },
         gatherResults dw cache body.results) := by
  unfold get_pokemon_data_body
  rw [hs]
  simp only [Bool.false_eq_true, if_false]
  rw [hlw]
  simp [hex]

/-- Forward evaluation of the try body, search branch, list call OK, no task
exception. -/
theorem body_search_eval (page limit : Nat) (search : Option String)
    (lw : Nat → Nat → ListResp) (dw : String → DetailResp) (cache : Cache)
    (body : ListBody) (hs : searchActive search = true)
    (hlw : lw 0 1000 = ListResp.response 200 body)
    (hex : anyExn (gatherResults dw cache
      (pageSlice ((page - 1) * limit) limit
        (searchFiltered (search.getD "") body))) = false) :
    get_pokemon_data_body page limit search lw dw cache
      = (Except.ok { pokemon := foundOnly (gatherResults dw cache
                       (pageSlice ((page - 1) * limit) limit
                         (searchFiltered (search.getD "") body))),
                     page := page,
                     total := (searchFiltered (search.getD "") body).length,
                     has_more := decide ((page - 1) * limit + limit
                       < (searchFiltered (search.getD "") body).length) },
         gatherResults dw cache
           (pageSlice ((page - 1) * limit) limit
             (searchFiltered (search.getD "") body))) := by
  unfold get_pokemon_data_body
  rw [hs]
  simp only [if_true]
  rw [hlw]
  simp [hex]

/-- Predicate `charsBeginWith` decides the existence of a split `hay = needle ++ post`. -/
theorem charsBeginWith_iff (needle : List Char) : ∀ hay,
    charsBeginWith needle hay = true ↔ ∃ post, hay = needle ++ post := by
  induction needle with
  | nil => intro hay; simp [charsBeginWith]
  | cons a as ih =>
    intro hay
    cases hay with
    | nil =>
      simp [charsBeginWith]
    | cons b bs =>
      rw [charsBeginWith]
      constructor
      · intro h
        rw [Bool.and_eq_true] at h
        obtain ⟨hab, hrest⟩ := h
        obtain ⟨post, hpost⟩ := (ih bs).mp hrest
        exact ⟨post, by rw [hpost, beq_iff_eq.mp hab]; rfl⟩
      · rintro ⟨post, hpost⟩
        rw [List.cons_append] at hpost
        obtain ⟨hb, hbs⟩ := List.cons.injEq .. ▸ hpost
        rw [hb, Bool.and_eq_true]
        exact ⟨beq_self_eq_true a, (ih bs).mpr ⟨post, hbs⟩⟩

/-- Predicate `charsContain` decides substring occurrence. -/
theorem charsContain_iff (needle : List Char) : ∀ hay,
    charsContain needle hay = true ↔ ∃ pre post, hay = pre ++ needle ++ post := by
  intro hay
  induction hay with
  | nil =>
    rw [charsContain, charsBeginWith_iff]
    constructor
    · rintro ⟨post, hpost⟩
      exact ⟨[], post, hpost⟩
    · rintro ⟨pre, post, hpost⟩
      cases pre with
      | nil => exact ⟨post, hpost⟩
      | cons x xs => simp at hpost
  | cons b bs ih =>
    rw [charsContain]
    constructor
    · intro h
      rw [Bool.or_eq_true] at h
      rcases h with h1 | h2
      · obtain ⟨post, hpost⟩ := (charsBeginWith_iff needle (b :: bs)).mp h1
        exact ⟨[], post, hpost⟩
      · obtain ⟨pre, post, hpost⟩ := ih.mp h2
        exact ⟨b :: pre, post, by rw [hpost]; rfl⟩
    · rintro ⟨pre, post, hpost⟩
      rw [Bool.or_eq_true]
      cases pre with
      | nil =>
        exact Or.inl ((charsBeginWith_iff needle (b :: bs)).mpr ⟨post, hpost⟩)
      | cons x xs =>
        apply Or.inr
        apply ih.mpr
        rw [List.cons_append, List.cons_append] at hpost
        obtain ⟨hb, hbs⟩ := List.cons.injEq .. ▸ hpost
        exact ⟨xs, post, hbs⟩

/-! ## Concrete upstream worlds used by the closed theorems -/

def wDetailJson (n : String) : Json :=
  Json.obj [("id", Json.num 1), ("name", Json.str n), ("height", Json.num 7),
    ("weight", Json.num 69),
    ("types",
      Json.arr [Json.obj [("type", Json.obj [("name", Json.str "grass")])]]),
    ("sprites", Json.obj [("other", Json.obj [("official-artwork",
      Json.obj [("front_default", Json.str "http://img")])])])]

def wPoke (n : String) : Pokemon :=
  { id := 1, name := n, height := 7, weight := 69, types := ["grass"],
    image_url := some "http://img" }

def wDetailWorld : String → DetailResp :=
  fun n => DetailResp.response 200 (wDetailJson n)

def wNames : List String := (List.range 10).map (fun i => "poke" ++ toString i)

def wEntries : List ListEntry := wNames.map (fun n => { name := n, url := "u" })

def wBody : ListBody := { count := 1302, results := wEntries }

def wListWorld : Nat → Nat → ListResp := fun _ _ => ListResp.response 200 wBody

def wListWorld502 : Nat → Nat → ListResp :=
  fun _ _ => ListResp.response 502 { count := 0, results := [] }

def wResp : PokemonResponse :=
  { pokemon := wNames.map wPoke, page := 1, total := 1302, has_more := true }

def wDetailWorldDrop : String → DetailResp :=
  fun n => if n = "poke3" then DetailResp.netFail
    else DetailResp.response 200 (wDetailJson n)

def wRespDrop : PokemonResponse :=
  { pokemon := (wNames.filter (fun n => n ≠ "poke3")).map wPoke, page := 1,
    total := 1302, has_more := true }

def wSearchEntries : List ListEntry :=
  [{ name := "Pikachu", url := "u" }, { name := "Charmander", url := "u" },
   { name := "Bulbasaur", url := "u" }, { name := "Charizard", url := "u" }]

def wSearchBody : ListBody := { count := 1302, results := wSearchEntries }

def wListWorldSearch : Nat → Nat → ListResp :=
  fun _ _ => ListResp.response 200 wSearchBody

def wRespSearch : PokemonResponse :=
  { pokemon := [wPoke "charmander", wPoke "charizard"], page := 1, total := 2,
    has_more := false }

def wDetailJsonNoSprites : Json :=
  Json.obj [("id", Json.num 1), ("name", Json.str "pikachu"),
    ("height", Json.num 4), ("weight", Json.num 60),
    ("types",
      Json.arr [Json.obj [("type", Json.obj [("name", Json.str "electric")])]])]

def wDetailWorldNoSprites : String → DetailResp :=
  fun _ => DetailResp.response 200 wDetailJsonNoSprites

/-! ## The claims -/

/-- C1. The claim says a non-OK status from the initial upstream list call
surfaces with the upstream status code. The code violates this: the
`HTTPException(status_code=response.status_code, ...)` raised inside the `try`
is itself an `Exception`, so the `except Exception` clause catches it and
re-raises `HTTPException(500, "Internal server error: ...")`. Evaluating the
model at the failing input (page=1, limit=10, upstream list status 502, both
with and without a search term): the endpoint reports 500, not 502. -/
theorem C1_list_error_rewrapped_as_500 :
    (get_pokemon_data 1 10 none wListWorld502 wDetailWorld ([] : Cache) []
        ).response
      = EndpointResult.httpError 500
          "Internal server error: 502: Failed to fetch data from external API"
    ∧ (get_pokemon_data 1 10 (some "char") wListWorld502 wDetailWorld
        ([] : Cache) []).response
      = EndpointResult.httpError 500
          "Internal server error: 502: Failed to fetch data from external API"
    := ⟨rfl, rfl⟩

/-- C2. For every page ≥ 1, limit in 1..50, whenever the aggregator returns a
page envelope, `has_more = true` exactly when `(page-1)*limit + limit <
total`, and `total` is the upstream global count on the no-search path and the
filtered count on the search path. -/
theorem C2_has_more_pagination_arithmetic (page limit : Nat)
    (search : Option String) (lw : Nat → Nat → ListResp)
    (dw : String → DetailResp) (cache : Cache) (sched : List Nat)
    (r : PokemonResponse)
    (hpage : 1 ≤ page) (hlim1 : 1 ≤ limit) (hlim50 : limit ≤ 50)
    (h : (get_pokemon_data page limit search lw dw cache sched).response
      = EndpointResult.ok r) :
    (r.has_more = true ↔ (page - 1) * limit + limit < r.total) ∧
    (searchActive search = false →
      ∃ body, lw ((page - 1) * limit) limit = ListResp.response 200 body
        ∧ r.total = body.count) ∧
    (searchActive search = true →
      ∃ body, lw 0 1000 = ListResp.response 200 body
        ∧ r.total = (searchFiltered (search.getD "") body).length) := by
  obtain ⟨outs, hb⟩ :=
    (get_ok_iff page limit search lw dw cache sched r).mp h
  cases hsa : searchActive search with
  | false =>
    obtain ⟨body, hlw, houts, hex, hr⟩ :=
      body_ok_nosearch page limit search lw dw cache r outs hsa hb
    subst hr
    refine ⟨by simp, fun _ => ⟨body, hlw, rfl⟩, fun htrue => ?_⟩
    simp at htrue
  | true =>
    obtain ⟨body, hlw, houts, hex, hr⟩ :=
      body_ok_search page limit search lw dw cache r outs hsa hb
    subst hr
    refine ⟨by simp, fun hfalse => ?_, fun _ => ⟨body, hlw, rfl⟩⟩
    simp at hfalse

/-- Witness for C2: page 1, limit 10, upstream count 1302, ten entries, all
detail fetches succeed. -/
theorem C2_witness :
    (wResp.has_more = true ↔ (1 - 1) * 10 + 10 < wResp.total) ∧
    (searchActive none = false →
      ∃ body, wListWorld ((1 - 1) * 10) 10 = ListResp.response 200 body
        ∧ wResp.total = body.count) ∧
    (searchActive none = true →
      ∃ body, wListWorld 0 1000 = ListResp.response 200 body
        ∧ wResp.total
          = (searchFiltered ((none : Option String).getD "") body).length) :=
  C2_has_more_pagination_arithmetic 1 10 none wListWorld wDetailWorld
    ([] : Cache) [] wResp (by decide) (by decide) (by decide) (by rfl)

/-- C3. A record cached under the lowercased name is returned as-is with no
upstream call and no cache write; and after any resolution that found a
record, resolving the same name again is a pure cache hit: zero upstream
calls, no overwrite, the identical record. -/
theorem C3_cache_hit_write_once (w : String → DetailResp) (c : Cache)
    (n : String) (p : Pokemon) :
    (c.lookup (strToLower n) = some p →
      fetch_pokemon_details w c n
        = { result := FetchResult.found p, write := none, calls := 0 }) ∧
    ((fetch_pokemon_details w c n).result = FetchResult.found p →
      fetch_pokemon_details w (applyWrite c (fetch_pokemon_details w c n).write) n
        = { result := FetchResult.found p, write := none, calls := 0 }) :=
  ⟨fetch_cache_hit w c n p, fetch_after_found w c n n p rfl⟩

/-- Witness for C3: a pre-populated cache entry for `pikachu`, then a fresh
resolution of `Pikachu` followed by a second resolution of the same name. -/
theorem C3_witness :
    (fetch_pokemon_details wDetailWorld [("pikachu", wPoke "pikachu")] "Pikachu"
      = { result := FetchResult.found (wPoke "pikachu"), write := none,
          calls := 0 }) ∧
    (fetch_pokemon_details wDetailWorld
        (applyWrite ([] : Cache)
          (fetch_pokemon_details wDetailWorld ([] : Cache) "Pikachu").write)
        "Pikachu"
      = { result := FetchResult.found (wPoke "pikachu"), write := none,
          calls := 0 }) :=
  ⟨(C3_cache_hit_write_once wDetailWorld [("pikachu", wPoke "pikachu")]
      "Pikachu" (wPoke "pikachu")).1 (by rfl),
   (C3_cache_hit_write_once wDetailWorld ([] : Cache) "Pikachu"
      (wPoke "pikachu")).2 (by rfl)⟩

def w404World : String → DetailResp := fun _ => DetailResp.response 404 Json.null

/-- C7. A non-OK detail status, a timeout, or a transport failure makes the
resolver return absence (never an exception); the single-item endpoint turns
exactly that absence into a 404 and returns a found record unchanged. -/
theorem C7_absence_becomes_404 (w : String → DetailResp) (c : Cache)
    (n : String) :
    (c.lookup (strToLower n) = none →
      (w (strToLower n) = DetailResp.netFail
        ∨ ∃ status data, w (strToLower n) = DetailResp.response status data
            ∧ status ≠ 200) →
      (fetch_pokemon_details w c n).result = FetchResult.absent) ∧
    ((fetch_pokemon_details w c n).result = FetchResult.absent →
      (get_pokemon_by_name w c n).response
        = EndpointResult.httpError 404 "Pokemon not found") ∧
    (∀ p, (fetch_pokemon_details w c n).result = FetchResult.found p →
      (get_pokemon_by_name w c n).response = EndpointResult.ok p) := by
  refine ⟨?_, ?_, ?_⟩
  · intro hc hw
    unfold fetch_pokemon_details
    rw [hc]
    rcases hw with hw | ⟨status, data, hw, hs⟩
    · rw [hw]
    · rw [hw]
      simp [hs]
  · intro h
    unfold get_pokemon_by_name
    simp only [h]
  · intro p h
    unfold get_pokemon_by_name
    simp only [h]

/-- Witness for C7: an upstream that answers 404 for every name, and a healthy
upstream for the found case. -/
theorem C7_witness :
    ((fetch_pokemon_details w404World ([] : Cache) "missingno").result
      = FetchResult.absent) ∧
    ((get_pokemon_by_name w404World ([] : Cache) "missingno").response
      = EndpointResult.httpError 404 "Pokemon not found") ∧
    ((get_pokemon_by_name wDetailWorld ([] : Cache) "pikachu").response
      = EndpointResult.ok (wPoke "pikachu")) :=
  ⟨(C7_absence_becomes_404 w404World ([] : Cache) "missingno").1 (by rfl)
      (Or.inr ⟨404, Json.null, rfl, by decide⟩),
   (C7_absence_becomes_404 w404World ([] : Cache) "missingno").2.1 (by rfl),
   (C7_absence_becomes_404 wDetailWorld ([] : Cache) "pikachu").2.2
      (wPoke "pikachu") (by rfl)⟩

/-- C8. A status-200 detail response whose required fields are well-shaped but
whose image path `sprites/other/official-artwork/front_default` breaks
somewhere still resolves to a record — with no image URL — rather than
failing. -/
theorem C8_broken_image_path_tolerated (w : String → DetailResp) (c : Cache)
    (n : String) (data : Json)
    (hc : c.lookup (strToLower n) = none)
    (hw : w (strToLower n) = DetailResp.response 200 data)
    (hreq : requiredFieldsOk data = true)
    (himg : imagePathLookup data = none) :
    ∃ p, (fetch_pokemon_details w c n).result = FetchResult.found p
      ∧ p.image_url = none := by
  have hsome : (parseDetail data).isSome = true := by
    rw [parseDetail_isSome_eq, hreq]
  obtain ⟨p, hp⟩ := Option.isSome_iff_exists.mp hsome
  refine ⟨p, ?_, ?_⟩
  · unfold fetch_pokemon_details
    rw [hc, hw]
    simp [hp]
  · rw [parseDetail_image_url data p hp, extractImageUrl_none data himg]

/-- Witness for C8: a detail body with all required fields and no `sprites`
key at all. -/
theorem C8_witness :
    ∃ p, (fetch_pokemon_details wDetailWorldNoSprites ([] : Cache)
        "pikachu").result = FetchResult.found p ∧ p.image_url = none :=
  C8_broken_image_path_tolerated wDetailWorldNoSprites ([] : Cache) "pikachu"
    wDetailJsonNoSprites (by rfl) (by rfl) (by rfl) (by rfl)

/-- C9. Resolution is case-insensitive: names with the same lowercased form
resolve identically (the cache key and the upstream URL both use
`name.lower()`), resolving a name equals resolving its lowercased form, the
single-item endpoint agrees, and after one of them was found the other is a
pure cache hit with zero upstream calls. -/
theorem C9_case_insensitive_resolution (w : String → DetailResp) (c : Cache)
    (n1 n2 : String) (hl : strToLower n1 = strToLower n2) :
    fetch_pokemon_details w c n1 = fetch_pokemon_details w c n2 ∧
    fetch_pokemon_details w c n1
      = fetch_pokemon_details w c (strToLower n1) ∧
    get_pokemon_by_name w c n1 = get_pokemon_by_name w c n2 ∧
    (∀ p, (fetch_pokemon_details w c n1).result = FetchResult.found p →
      fetch_pokemon_details w
          (applyWrite c (fetch_pokemon_details w c n1).write) n2
        = { result := FetchResult.found p, write := none, calls := 0 }) := by
  have hfe : fetch_pokemon_details w c n1 = fetch_pokemon_details w c n2 := by
    unfold fetch_pokemon_details
    rw [hl]
  refine ⟨hfe, (fetch_toLower w c n1).symm, ?_,
    fun p hp => fetch_after_found w c n1 n2 p hl hp⟩
  unfold get_pokemon_by_name
  simp only [hfe]

/-- Witness for C9: `PiKaChu` and `pikachu`. -/
theorem C9_witness :
    (fetch_pokemon_details wDetailWorld ([] : Cache) "PiKaChu"
        = fetch_pokemon_details wDetailWorld ([] : Cache) "pikachu") ∧
    (fetch_pokemon_details wDetailWorld ([] : Cache) "PiKaChu"
        = fetch_pokemon_details wDetailWorld ([] : Cache)
            (strToLower "PiKaChu")) ∧
    (get_pokemon_by_name wDetailWorld ([] : Cache) "PiKaChu"
        = get_pokemon_by_name wDetailWorld ([] : Cache) "pikachu") ∧
    (∀ p, (fetch_pokemon_details wDetailWorld ([] : Cache) "PiKaChu").result
          = FetchResult.found p →
      fetch_pokemon_details wDetailWorld
          (applyWrite ([] : Cache)
            (fetch_pokemon_details wDetailWorld ([] : Cache) "PiKaChu").write)
          "pikachu"
        = { result := FetchResult.found p, write := none, calls := 0 }) :=
  C9_case_insensitive_resolution wDetailWorld ([] : Cache) "PiKaChu" "pikachu"
    (by rfl)

/-- C10. A present-but-empty search term is falsy in `if search:`, so the
aggregator behaves exactly as with no search term: same result, upstream slice
requested at `(page-1)*limit`, and `total` is the upstream global count. -/
theorem C10_empty_search_is_no_search (page limit : Nat)
    (lw : Nat → Nat → ListResp) (dw : String → DetailResp) (cache : Cache)
    (sched : List Nat) :
    get_pokemon_data page limit (some "") lw dw cache sched
      = get_pokemon_data page limit none lw dw cache sched ∧
    (∀ body r, lw ((page - 1) * limit) limit = ListResp.response 200 body →
      (get_pokemon_data page limit (some "") lw dw cache sched).response
        = EndpointResult.ok r →
      r.total = body.count ∧
      r.pokemon = foundOnly (gatherResults dw cache body.results)) := by
  constructor
  · rfl
  · intro body r hlw h
    obtain ⟨outs, hb⟩ :=
      (get_ok_iff page limit (some "") lw dw cache sched r).mp h
    obtain ⟨body', hlw', houts, hex, hr⟩ :=
      body_ok_nosearch page limit (some "") lw dw cache r outs (by rfl) hb
    rw [hlw] at hlw'
    injection hlw' with h200 hbody
    subst hbody
    subst hr
    exact ⟨rfl, by rw [houts]⟩

/-- Witness for C10: the ten-entry upstream with count 1302. -/
theorem C10_witness :
    (get_pokemon_data 1 10 (some "") wListWorld wDetailWorld ([] : Cache) []
      = get_pokemon_data 1 10 none wListWorld wDetailWorld ([] : Cache) []) ∧
    (wResp.total = wBody.count ∧
      wResp.pokemon
        = foundOnly (gatherResults wDetailWorld ([] : Cache) wBody.results)) :=
  ⟨(C10_empty_search_is_no_search 1 10 wListWorld wDetailWorld ([] : Cache)
      []).1,
   (C10_empty_search_is_no_search 1 10 wListWorld wDetailWorld ([] : Cache)
      []).2 wBody wResp rfl (by rfl)⟩

/-- C4. With a non-empty search term the aggregator depends on the upstream
list only through the single slice at offset 0, limit 1000; on success,
`total` is the filtered count before paging, the records come from resolving
only the slice `filtered[(page-1)*limit : (page-1)*limit + limit]`, and an
entry survives the filter exactly when its lowercased name contains the
lowercased term as a substring. -/
theorem C4_search_path (page limit : Nat) (s : String) (hs : s ≠ "")
    (lw lw' : Nat → Nat → ListResp) (dw : String → DetailResp) (cache : Cache)
    (sched : List Nat) :
    (lw 0 1000 = lw' 0 1000 →
      get_pokemon_data page limit (some s) lw dw cache sched
        = get_pokemon_data page limit (some s) lw' dw cache sched) ∧
    (∀ body r, lw 0 1000 = ListResp.response 200 body →
      (get_pokemon_data page limit (some s) lw dw cache sched).response
        = EndpointResult.ok r →
      r.total = (searchFiltered s body).length ∧
      r.pokemon = foundOnly (gatherResults dw cache
        (pageSlice ((page - 1) * limit) limit (searchFiltered s body))) ∧
      (∀ e, e ∈ searchFiltered s body ↔ e ∈ body.results ∧
        ∃ pre post, (strToLower e.name).toList
          = pre ++ (strToLower s).toList ++ post)) := by
  have hsa : searchActive (some s) = true := by
    simp [searchActive, hs]
  constructor
  · intro hagree
    unfold get_pokemon_data get_pokemon_data_body
    simp only [if_pos hsa]
    rw [hagree]
  · intro body r hlw h
    obtain ⟨outs, hb⟩ :=
      (get_ok_iff page limit (some s) lw dw cache sched r).mp h
    obtain ⟨body', hlw', houts, hex, hr⟩ :=
      body_ok_search page limit (some s) lw dw cache r outs hsa hb
    rw [hlw] at hlw'
    injection hlw' with h200 hbody
    subst hbody
    subst hr
    refine ⟨rfl, by rw [houts]; rfl, ?_⟩
    intro e
    rw [searchFiltered, List.mem_filter]
    apply and_congr_right
    intro _
    show strContains (strToLower e.name) (strToLower s) = true ↔ _
    rw [strContains, charsContain_iff]

/-- Witness for C4: four upstream names, term `char`, matching `Charmander`
and `Charizard`. -/
theorem C4_witness :
    wRespSearch.total = (searchFiltered "char" wSearchBody).length ∧
    wRespSearch.pokemon = foundOnly (gatherResults wDetailWorld ([] : Cache)
      (pageSlice ((1 - 1) * 10) 10 (searchFiltered "char" wSearchBody))) ∧
    (∀ e, e ∈ searchFiltered "char" wSearchBody ↔ e ∈ wSearchBody.results ∧
      ∃ pre post, (strToLower e.name).toList
        = pre ++ (strToLower "char").toList ++ post) :=
  (C4_search_path 1 10 "char" (by decide) wListWorldSearch wListWorldSearch
      wDetailWorld ([] : Cache) []).2 wSearchBody wRespSearch rfl (by rfl)

/-- C5. The response is independent of the completion order of the concurrent
detail fetches (the schedule only affects the cache), and on success the
record list is exactly the upstream list slice of that page, in upstream
order, with the entries that resolved to absence dropped. -/
theorem C5_order_follows_upstream (page limit : Nat) (search : Option String)
    (lw : Nat → Nat → ListResp) (dw : String → DetailResp) (cache : Cache)
    (sched sched' : List Nat) :
    ((get_pokemon_data page limit search lw dw cache sched).response
      = (get_pokemon_data page limit search lw dw cache sched').response) ∧
    (∀ r, (get_pokemon_data page limit search lw dw cache sched).response
        = EndpointResult.ok r →
      ∃ entries,
        ((searchActive search = false ∧ ∃ body,
            lw ((page - 1) * limit) limit = ListResp.response 200 body
              ∧ entries = body.results)
          ∨ (searchActive search = true ∧ ∃ body,
            lw 0 1000 = ListResp.response 200 body
              ∧ entries = pageSlice ((page - 1) * limit) limit
                  (searchFiltered (search.getD "") body))) ∧
        r.pokemon = entries.filterMap (fun e =>
          match (fetch_pokemon_details dw cache e.name).result with
          | FetchResult.found p => some p
          | _ => none)) := by
  refine ⟨get_response_sched_irrel page limit search lw dw cache sched sched',
    ?_⟩
  intro r h
  obtain ⟨outs, hb⟩ := (get_ok_iff page limit search lw dw cache sched r).mp h
  cases hsa : searchActive search with
  | false =>
    obtain ⟨body, hlw, houts, hex, hr⟩ :=
      body_ok_nosearch page limit search lw dw cache r outs hsa hb
    subst hr
    exact ⟨body.results, Or.inl ⟨rfl, body, hlw, rfl⟩,
      by rw [houts, foundOnly_gather]⟩
  | true =>
    obtain ⟨body, hlw, houts, hex, hr⟩ :=
      body_ok_search page limit search lw dw cache r outs hsa hb
    subst hr
    exact ⟨pageSlice ((page - 1) * limit) limit
        (searchFiltered (search.getD "") body),
      Or.inr ⟨rfl, body, hlw, rfl⟩,
      by rw [houts, foundOnly_gather]⟩

/-- Witness for C5: the ten-entry upstream where the fetch for `poke3` times
out; the nine surviving records keep upstream order. -/
theorem C5_witness :
    ∃ entries,
      ((searchActive (none : Option String) = false ∧ ∃ body,
          wListWorld ((1 - 1) * 10) 10 = ListResp.response 200 body
            ∧ entries = body.results)
        ∨ (searchActive (none : Option String) = true ∧ ∃ body,
          wListWorld 0 1000 = ListResp.response 200 body
            ∧ entries = pageSlice ((1 - 1) * 10) 10
                (searchFiltered ((none : Option String).getD "") body))) ∧
      wRespDrop.pokemon = entries.filterMap (fun e =>
        match (fetch_pokemon_details wDetailWorldDrop ([] : Cache)
            e.name).result with
        | FetchResult.found p => some p
        | _ => none) :=
  (C5_order_follows_upstream 1 10 none wListWorld wDetailWorldDrop
      ([] : Cache) [] [0, 1, 2]).2 wRespDrop (by rfl)

/-- C6. Detail resolutions turning into absences (timeout, transport failure,
non-OK detail status) never abort the page request: against a world `dw` whose
resolutions either agree with `dw'` or come back absent, the request still
succeeds, `page`, `total` and `has_more` are unchanged, and only the record
list shrinks (as an order-preserving sublist). -/
theorem C6_absences_keep_page_fields (page limit : Nat) (search : Option String)
    (lw : Nat → Nat → ListResp) (dw dw' : String → DetailResp) (cache : Cache)
    (sched sched' : List Nat) (r' : PokemonResponse)
    (hrel : ∀ n, (fetch_pokemon_details dw cache n).result = FetchResult.absent
      ∨ (fetch_pokemon_details dw cache n).result
        = (fetch_pokemon_details dw' cache n).result)
    (h' : (get_pokemon_data page limit search lw dw' cache sched').response
      = EndpointResult.ok r') :
    ∃ r, (get_pokemon_data page limit search lw dw cache sched).response
        = EndpointResult.ok r ∧
      r.page = r'.page ∧ r.total = r'.total ∧ r.has_more = r'.has_more ∧
      r.pokemon.Sublist r'.pokemon := by
  obtain ⟨outs', hb'⟩ :=
    (get_ok_iff page limit search lw dw' cache sched' r').mp h'
  cases hsa : searchActive search with
  | false =>
    obtain ⟨body, hlw, houts', hex', hr'⟩ :=
      body_ok_nosearch page limit search lw dw' cache r' outs' hsa hb'
    have hex : anyExn (gatherResults dw cache body.results) = false := by
      rw [anyExn_eq_false_iff]
      intro o ho
      rw [gatherResults] at ho
      obtain ⟨e, he, rfl⟩ := List.mem_map.mp ho
      rcases hrel e.name with ha | ha
      · rw [ha]
        simp
      · rw [ha]
        have hmem : fetch_pokemon_details dw' cache e.name ∈ outs' := by
          rw [houts', gatherResults]
          exact List.mem_map.mpr ⟨e, he, rfl⟩
        exact (anyExn_eq_false_iff outs').mp hex' _ hmem
    have hbody :=
      body_nosearch_eval page limit search lw dw cache body hsa hlw hex
    refine ⟨_,
      (get_ok_iff page limit search lw dw cache sched _).mpr ⟨_, hbody⟩,
      ?_, ?_, ?_, ?_⟩
    · rw [hr']
    · rw [hr']
    · rw [hr']
    · rw [hr', houts']
      show (foundOnly (gatherResults dw cache body.results)).Sublist
        (foundOnly (gatherResults dw' cache body.results))
      rw [foundOnly_gather, foundOnly_gather]
      apply filterMap_sublist_of_agree
      intro e he
      rcases hrel e.name with ha | ha
      · left
        rw [ha]
      · right
        rw [ha]
  | true =>
    obtain ⟨body, hlw, houts', hex', hr'⟩ :=
      body_ok_search page limit search lw dw' cache r' outs' hsa hb'
    have hex : anyExn (gatherResults dw cache
        (pageSlice ((page - 1) * limit) limit
          (searchFiltered (search.getD "") body))) = false := by
      rw [anyExn_eq_false_iff]
      intro o ho
      rw [gatherResults] at ho
      obtain ⟨e, he, rfl⟩ := List.mem_map.mp ho
      rcases hrel e.name with ha | ha
      · rw [ha]
        simp
      · rw [ha]
        have hmem : fetch_pokemon_details dw' cache e.name ∈ outs' := by
          rw [houts', gatherResults]
          exact List.mem_map.mpr ⟨e, he, rfl⟩
        exact (anyExn_eq_false_iff outs').mp hex' _ hmem
    have hbody :=
      body_search_eval page limit search lw dw cache body hsa hlw hex
    refine ⟨_,
      (get_ok_iff page limit search lw dw cache sched _).mpr ⟨_, hbody⟩,
      ?_, ?_, ?_, ?_⟩
    · rw [hr']
    · rw [hr']
    · rw [hr']
    · rw [hr', houts']
      show (foundOnly (gatherResults dw cache
          (pageSlice ((page - 1) * limit) limit
            (searchFiltered (search.getD "") body)))).Sublist
        (foundOnly (gatherResults dw' cache
          (pageSlice ((page - 1) * limit) limit
            (searchFiltered (search.getD "") body))))
      rw [foundOnly_gather, foundOnly_gather]
      apply filterMap_sublist_of_agree
      intro e he
      rcases hrel e.name with ha | ha
      · left
        rw [ha]
      · right
        rw [ha]

/-- Witness for C6: the fetch for `poke3` times out; the page succeeds with
nine records and the same page, total and has-more fields as the all-success
run. -/
theorem C6_witness :
    ∃ r, (get_pokemon_data 1 10 none wListWorld wDetailWorldDrop ([] : Cache)
          []).response = EndpointResult.ok r ∧
      r.page = wResp.page ∧ r.total = wResp.total ∧
      r.has_more = wResp.has_more ∧ r.pokemon.Sublist wResp.pokemon :=
  C6_absences_keep_page_fields 1 10 none wListWorld wDetailWorldDrop wDetailWorld
    ([] : Cache) [] [] wResp
    (by
      intro n
      by_cases hn : strToLower n = "poke3"
      · left
        unfold fetch_pokemon_details
        simp [Cache.lookup, wDetailWorldDrop, hn]
      · right
        unfold fetch_pokemon_details
        simp [Cache.lookup, wDetailWorldDrop, wDetailWorld, hn])
    (by rfl)
